import Mathlib

/-!
Shallow embedding of the YouTube audio extraction pipeline
(`src/unnamed/part_000`, the variant of `extractAudio` with the yt-dlp
fallback, plus `resolveUrl`, `downloadAudio`, `downloadChunked`,
`getInnertube`; constants from the same file and `src/src/config.ts`).

External effects (the `fetch` network capability, the innertube
`getInfo` metadata query, the session player's decipher capability and
the yt-dlp subprocess fallback) are modelled as an explicit environment
record; the pipeline is a pure function of that environment.  Byte
buffers are `List Nat`, error objects are their message strings.
-/

/-! ## JavaScript semantics helpers -/

/-- Truthiness of an optional string: `null`/`undefined` and `""` are falsy. -/
def strTruthy : Option String → Bool
  | none => false
  | some s => !(s == "")

/-- `o || d` for an optional string `o`: falsy (absent or empty) values
are replaced by the default `d`. -/
def jsOrStr (o : Option String) (d : String) : String :=
  match o with
  | some s => if s == "" then d else s
  | none => d

/-- `s.startsWith(p)`: computed over the character lists (agrees with
the byte-level library implementation). -/
def strStartsWith (s p : String) : Bool :=
  p.toList.isPrefixOf s.toList

/-- Numeric value of a list of decimal digit characters. -/
def digitsVal (l : List Char) : Nat :=
  l.foldl (fun a c => a * 10 + (c.toNat - 48)) 0

/-- Model of JavaScript `parseInt(s, 10)` restricted to the inputs this
program feeds it (header values: a run of leading decimal digits, or
garbage).  `none` models `NaN`. -/
def jsParseInt (s : String) : Option Nat :=
  let ds := s.toList.takeWhile Char.isDigit
  if ds.isEmpty then none else some (digitsVal ds)

/-! ## Content-Range header parsing

Model of `contentRange.match(/bytes \d+-\d+\/(\d+)/)` followed by
`parseInt(match[1], 10)`: search the string for the pattern and return
the numeric value of the captured final digit run. -/

/-- Try to match `bytes <digits>-<digits>/<digits>` at the head of the
character list; on success return the value of the captured third digit
run (maximal, as `\d+` is greedy). -/
def matchContentRangeAt (cs : List Char) : Option Nat :=
  if cs.take 6 = "bytes ".toList then
    let r0 := cs.drop 6
    let d1 := r0.takeWhile Char.isDigit
    let r1 := r0.dropWhile Char.isDigit
    if d1.isEmpty then none else
    match r1 with
    | '-' :: r2 =>
      let d2 := r2.takeWhile Char.isDigit
      let r3 := r2.dropWhile Char.isDigit
      if d2.isEmpty then none else
      match r3 with
      | '/' :: r4 =>
        let d3 := r4.takeWhile Char.isDigit
        if d3.isEmpty then none else some (digitsVal d3)
      | _ => none
    | _ => none
  else none

/-- Regex search: try the pattern at every position, first hit wins. -/
def searchContentRange : List Char → Option Nat
  | [] => none
  | c :: rest =>
    match matchContentRangeAt (c :: rest) with
    | some n => some n
    | none => searchContentRange rest

/-- Total resource size extracted from a `content-range` header value,
if the header matches `bytes <start>-<end>/<total>` anywhere. -/
def parseContentRangeTotal (s : String) : Option Nat :=
  searchContentRange s.toList

/-! ## Constants (src/unnamed/part_000, lines 20-25) -/

def YOUTUBE_USER_AGENT : String :=
  "Mozilla/5.0 (Windows NT 10.0; Win64; x64) AppleWebKit/537.36 (KHTML, like Gecko) Chrome/123.0.0.0 Safari/537.36"

def YOUTUBE_ORIGIN : String := "https://www.youtube.com"

/-- 512KB - 1 (inclusive end byte). -/
def CHUNK_SIZE : Nat := 524287

/-- 50MB safety cap for full GET. -/
def MAX_FULL_GET_SIZE : Nat := 50 * 1024 * 1024

/-! ## HTTP model -/

/-- One `fetch` request.  The `Range: bytes=<start>-<end>` header is kept
structured as the pair `(start, end)` (the textual form is injective in
it); `range = none` is a request without a `Range` header. -/
structure Request where
  url : String
  headers : List (String × String)
  range : Option (Nat × Nat)
deriving DecidableEq, Repr

/-- A `fetch` response: status, the two headers the code reads, and the
bytes `arrayBuffer()` would deliver. -/
structure Response where
  status : Nat
  contentLengthHdr : Option String
  contentRangeHdr : Option String
  body : List Nat
deriving DecidableEq, Repr

/-- `Response.ok` per the fetch specification: status in [200, 299]. -/
def Response.ok (r : Response) : Bool :=
  decide (200 ≤ r.status) && decide (r.status ≤ 299)

/-- The fixed browser-mimicking header set built in `downloadAudio`. -/
def youtubeHeaders : List (String × String) :=
  [("User-Agent", YOUTUBE_USER_AGENT),
   ("Origin", YOUTUBE_ORIGIN),
   ("Referer", YOUTUBE_ORIGIN ++ "/")]

/-! ## Environment

The external collaborators consumed by the pipeline.  `fetch` may throw
(`.error`); `getInfo` is the already-raced metadata query (a timeout of
the race is one of its `.error` outcomes); `ytDlp` is the Legacy
Extractor capability `extractWithYtDlp` whose internals (subprocess,
JSON parsing, temp files) are external effects.  `nodeType` is
`config.nodeType` from `src/src/config.ts`. -/

/-- The session player's decipher capability
(`player.decipher(url, signature_cipher, cipher)`), which may throw. -/
structure Player where
  decipher : Option String → Option String → Option String →
    Except String (Option String)

/-- One candidate adaptive format as the code reads it.  `decipherFn` is
`some f` exactly when `typeof format.decipher === "function"`, with `f`
the outcome of calling it on the player. -/
structure AdaptiveFormat where
  mime_type : Option String
  has_audio : Option Bool
  bitrate : Option Nat
  average_bitrate : Option Nat
  url : Option String
  signature_cipher : Option String
  signatureCipher : Option String
  cipher : Option String
  decipherFn : Option (Player → Except String (Option String))

/-- `info.basic_info` as read by the code.  `thumbnail` is the list of
thumbnail URLs (`thumbnail?.[0]?.url` reads the head). -/
structure BasicInfo where
  title : Option String
  duration : Option Nat
  channelName : Option String
  thumbnail : Option (List String)

/-- `info.streaming_data`.  An absent `adaptive_formats` field and an
empty one are both modelled as `[]` (the code treats both as "no
formats" via `?.length`). -/
structure StreamingData where
  adaptive_formats : List AdaptiveFormat

/-- The raced result of `innertube.getInfo`. -/
structure Info where
  streaming_data : Option StreamingData
  basic_info : BasicInfo

/-- Terminal result record (src/unnamed/part_000, lines 38-45). -/
structure ExtractedAudio where
  data : List Nat
  title : String
  duration : Nat
  author : String
  thumbnail : String
  mimeType : String
deriving DecidableEq, Repr

/-- The environment: every external capability the pipeline consumes,
as deterministic functions of the request. -/
structure Env where
  nodeType : String
  player : Option Player
  getInfo : String → String → Option String → Except String Info
  fetch : Request → Except String Response
  ytDlp : String → Except String ExtractedAudio

/-! ## Audio Downloader (src/unnamed/part_000, lines 179-264)

Each function returns its result paired with the list of `fetch`
requests it issued, in order. -/

/-- `totalSize` as computed from the first chunked response: 0 when the
`content-range` header is absent or does not match the pattern. -/
def crTotal (resp : Response) : Nat :=
  match resp.contentRangeHdr with
  | none => 0
  | some s => (parseContentRangeTotal s).getD 0

/-- The loop of `downloadChunked` (lines 250-259): sequential range
requests from `start`, advancing by `CHUNK_SIZE + 1`, each with
`end = min(start + CHUNK_SIZE, totalSize - 1)`, until `start` reaches
`totalSize`.  Returns the fetched chunk bodies in request order (or the
error of the first failing request). -/
def chunkLoop (env : Env) (url : String) (headers : List (String × String))
    (totalSize start : Nat) : Except String (List (List Nat)) :=
  if _h : start < totalSize then
    let e := min (start + CHUNK_SIZE) (totalSize - 1)
    let req : Request := { url := url, headers := headers, range := some (start, e) }
    match env.fetch req with
    | .error msg => .error msg
    | .ok resp =>
      if !resp.ok && resp.status ≠ 206 then
        .error ("Chunk download failed: HTTP " ++ toString resp.status ++
          " for bytes " ++ toString start ++ "-" ++ toString e)
      else
        (chunkLoop env url headers totalSize (start + CHUNK_SIZE + 1)).map
          (fun rs => resp.body :: rs)
  else .ok []
termination_by totalSize - start
decreasing_by omega

/-- The instrumentation of the same loop: the range requests issued, in
order.  `env.fetch` is a pure function of the request, so this traversal
observes exactly the responses `chunkLoop` observes; the loop stops at
the first thrown or unacceptable response. -/
def chunkLoopReqs (env : Env) (url : String) (headers : List (String × String))
    (totalSize start : Nat) : List Request :=
  if _h : start < totalSize then
    let e := min (start + CHUNK_SIZE) (totalSize - 1)
    let req : Request := { url := url, headers := headers, range := some (start, e) }
    match env.fetch req with
    | .error _ => [req]
    | .ok resp =>
      if !resp.ok && resp.status ≠ 206 then [req]
      else req :: chunkLoopReqs env url headers totalSize (start + CHUNK_SIZE + 1)
  else []
termination_by totalSize - start
decreasing_by omega

/-- `downloadChunked` (lines 218-264). -/
def downloadChunked (env : Env) (url : String)
    (headers : List (String × String)) : Except String (List Nat) × List Request :=
  let req0 : Request := { url := url, headers := headers, range := some (0, CHUNK_SIZE) }
  match env.fetch req0 with
  | .error msg => (.error msg, [req0])
  | .ok firstResponse =>
    if !firstResponse.ok && firstResponse.status ≠ 206 then
      (.error ("Audio download failed: HTTP " ++ toString firstResponse.status), [req0])
    else
      let firstChunk := firstResponse.body
      if firstChunk.length = 0 then
        (.error "Audio download returned empty response", [req0])
      else
        let totalSize := crTotal firstResponse
        if totalSize = 0 || firstChunk.length ≥ totalSize then
          (.ok firstChunk, [req0])
        else
          ((chunkLoop env url headers totalSize firstChunk.length).map
            (fun rs => (firstChunk :: rs).flatten),
           req0 :: chunkLoopReqs env url headers totalSize firstChunk.length)

/-- `downloadAudio` (lines 179-216): full GET first; on a thrown fetch,
a non-OK status, an over-cap declared content length, or an empty body,
fall through to `downloadChunked`. -/
def downloadAudio (env : Env) (url : String) : Except String (List Nat) × List Request :=
  let headers := youtubeHeaders
  let req : Request := { url := url, headers := headers, range := none }
  let fallthrough : Except String (List Nat) × List Request :=
    let rest := downloadChunked env url headers
    (rest.1, req :: rest.2)
  match env.fetch req with
  | .error _ => fallthrough
  | .ok resp =>
    if resp.ok then
      let contentLength := jsParseInt (jsOrStr resp.contentLengthHdr "0")
      if (match contentLength with
          | some n => decide (n > MAX_FULL_GET_SIZE)
          | none => false) then
        fallthrough
      else
        let data := resp.body
        if data.length > 0 then (.ok data, [req])
        else fallthrough
    else fallthrough

/-! ## Extraction Orchestrator (src/unnamed/part_000, lines 47-177) -/

/-- The recognized persona names (line 55). -/
def VALID_CLIENTS : List String := ["WEB", "ANDROID", "TV_EMBEDDED"]

/-- The default persona ordering by node type (lines 56-58). -/
def defaultOrder (nodeType : String) : List String :=
  if nodeType == "residential" then ["WEB", "ANDROID", "TV_EMBEDDED"]
  else ["ANDROID", "TV_EMBEDDED", "WEB"]

/-- The persona list actually iterated (lines 59-61):
`clientOrder?.length ? clientOrder.filter(...) : defaultOrder`. -/
def clientsFor (nodeType : String) (clientOrder : Option (List String)) : List String :=
  match clientOrder with
  | some l =>
    if l.length ≠ 0 then l.filter (fun c => VALID_CLIENTS.contains c)
    else defaultOrder nodeType
  | none => defaultOrder nodeType

/-- `resolveUrl` (lines 147-177): chain of decipher strategies, each
failure or falsy URL falling through to the next, ending at the
format's raw `url` field. -/
def resolveUrl (player : Option Player) (format : AdaptiveFormat) : Option String :=
  let s1 : Option String :=
    match player, format.decipherFn with
    | some p, some d =>
      match d p with
      | .ok u => if strTruthy u then u else none
      | .error _ => none
    | _, _ => none
  match s1 with
  | some u => some u
  | none =>
    let s2 : Option String :=
      match player with
      | some p =>
        let cipher := match format.signature_cipher with
          | some c => some c
          | none => format.signatureCipher
        match p.decipher format.url cipher format.cipher with
        | .ok u => if strTruthy u then u else none
        | .error _ => none
      | none => none
    match s2 with
    | some u => some u
    | none => format.url

/-- Effective bitrate of a format: `bitrate ?? average_bitrate ?? 0`. -/
def effectiveBitrate (f : AdaptiveFormat) : Nat :=
  match f.bitrate with
  | some b => b
  | none =>
    match f.average_bitrate with
    | some a => a
    | none => 0

/-- `audioFormats.reduce((best, current) => currentBitrate > bestBitrate
? current : best)`: the accumulator starts at the first element and is
replaced only on a strictly larger effective bitrate. -/
def selectBest (best : AdaptiveFormat) : List AdaptiveFormat → AdaptiveFormat
  | [] => best
  | current :: rest =>
    selectBest
      (if effectiveBitrate current > effectiveBitrate best then current else best)
      rest

/-- The audio-capable filter (lines 88-90):
`f.mime_type?.startsWith("audio/") && f.has_audio !== false`. -/
def isAudioFormat (f : AdaptiveFormat) : Bool :=
  (match f.mime_type with
   | some m => strStartsWith m "audio/"
   | none => false)
  && !(f.has_audio == some false)

/-- The outcome of one persona attempt: success, silent skip
(`continue` without recording an error), or a recorded failure
(`lastError = ...; continue`). -/
inductive AttemptResult where
  | success (a : ExtractedAudio)
  | skip
  | failed (e : String)

/-- One iteration of the persona loop (lines 66-132): metadata query
(with the proof token only for WEB), adaptive-format checks, best-format
selection, URL resolution, metadata defaulting and download. -/
def attemptClient (env : Env) (videoId : String) (poToken : Option String)
    (client : String) : AttemptResult × List Request :=
  let po := if strTruthy poToken && client == "WEB" then poToken else none
  match env.getInfo videoId client po with
  | .error e => (.failed e, [])
  | .ok info =>
    match info.streaming_data with
    | none => (.skip, [])
    | some sd =>
      if sd.adaptive_formats.length = 0 then (.skip, [])
      else
        match sd.adaptive_formats.filter isAudioFormat with
        | [] => (.skip, [])
        | f0 :: fs =>
          let bestAudio := selectBest f0 fs
          let audioUrl := resolveUrl env.player bestAudio
          if !(strTruthy audioUrl) then (.skip, [])
          else
            let mimeType := jsOrStr bestAudio.mime_type "audio/webm"
            let basicInfo := info.basic_info
            let title := jsOrStr basicInfo.title ("YouTube Video " ++ videoId)
            let duration := basicInfo.duration.getD 0
            let author := jsOrStr basicInfo.channelName "YouTube Channel"
            let thumbnail := jsOrStr
              (match basicInfo.thumbnail with
               | some (u :: _) => some u
               | _ => none)
              ("https://img.youtube.com/vi/" ++ videoId ++ "/mqdefault.jpg")
            let dl := downloadAudio env (audioUrl.getD "")
            match dl.1 with
            | .ok data =>
              (.success { data := data, title := title, duration := duration,
                          author := author, thumbnail := thumbnail,
                          mimeType := mimeType }, dl.2)
            | .error e => (.failed e, dl.2)

/-- The persona loop: returns the successful result if any (stopping
there), the final `lastError`, the clients actually attempted, and the
fetch requests issued. -/
def tryClients (env : Env) (videoId : String) (poToken : Option String)
    (clients : List String) (lastError : Option String) :
    Option ExtractedAudio × Option String × List String × List Request :=
  match clients with
  | [] => (none, lastError, [], [])
  | client :: rest =>
    let att := attemptClient env videoId poToken client
    match att.1 with
    | .success a => (some a, lastError, [client], att.2)
    | .skip =>
      let r := tryClients env videoId poToken rest lastError
      (r.1, r.2.1, client :: r.2.2.1, att.2 ++ r.2.2.2)
    | .failed e =>
      let r := tryClients env videoId poToken rest (some e)
      (r.1, r.2.1, client :: r.2.2.1, att.2 ++ r.2.2.2)

/-- Observable outcome of one `extractAudio` call: the returned value or
thrown error, plus instrumentation — the candidate persona list, the
personas whose metadata query was issued, the number of Legacy Extractor
invocations and the fetch requests issued. -/
structure ExtractOutcome where
  result : Except String ExtractedAudio
  candidates : List String
  attempted : List String
  legacyCalls : Nat
  requests : List Request

/-- `extractAudio` (lines 47-145).  `visitorData` is accepted, as in the
source signature, and never read.  When every persona fails, the Legacy
Extractor is invoked; its own error is caught and only logged, and the
call throws `lastError || new Error("No client returned playable
streaming data")`. -/
def extractAudio (env : Env) (videoId : String) (poToken : Option String)
    (visitorData : Option String) (clientOrder : Option (List String)) :
    ExtractOutcome :=
  let clients := clientsFor env.nodeType clientOrder
  let r := tryClients env videoId poToken clients none
  match r.1 with
  | some a =>
    { result := .ok a, candidates := clients, attempted := r.2.2.1,
      legacyCalls := 0, requests := r.2.2.2 }
  | none =>
    match env.ytDlp videoId with
    | .ok a =>
      { result := .ok a, candidates := clients, attempted := r.2.2.1,
        legacyCalls := 1, requests := r.2.2.2 }
    | .error _ =>
      { result := .error ((r.2.1).getD "No client returned playable streaming data"),
        candidates := clients, attempted := r.2.2.1,
        legacyCalls := 1, requests := r.2.2.2 }

/-! ## Session Manager (src/unnamed/part_000, lines 27-36)

`getInnertube` over explicit singleton state: `st` is the module-level
`innertubeInstance` variable, `create` the outcome `await
Innertube.create(...)` would have on this call.  The assignment happens
only after a successful `await`, so a failed creation leaves the
variable `null`. -/
def getInnertube {α : Type} (create : Except String α) (st : Option α) :
    Except String α × Option α :=
  match st with
  | some s => (.ok s, some s)
  | none =>
    match create with
    | .ok s => (.ok s, some s)
    | .error e => (.error e, none)

/-! ## Specification-side helpers -/

/-- Whether a persona attempt succeeded. -/
def isSuccessAttempt : AttemptResult → Bool
  | .success _ => true
  | _ => false

/-- The persona-level errors recorded while iterating `clients`, in
order (skips record nothing). -/
def personaErrors (env : Env) (videoId : String) (poToken : Option String)
    (clients : List String) : List String :=
  clients.filterMap fun c =>
    match (attemptClient env videoId poToken c).1 with
    | .failed e => some e
    | _ => none

/-- The `lastError` variable after recording the errors `errs` on top of
an initial value `le`. -/
def lastErrorState (le : Option String) (errs : List String) : Option String :=
  errs.foldl (fun _ e => some e) le

/-- The bytes of an abstract resource `res` from offset `s`, `n` bytes. -/
def resSlice (res : Nat → Nat) (s n : Nat) : List Nat :=
  (List.range n).map (fun i => res (s + i))

/-- The range bounds the chunk loop requests from offset `start` for a
resource of `totalSize` bytes: start advances by the window
`CHUNK_SIZE + 1`, the inclusive end is `min (start + CHUNK_SIZE)
(totalSize - 1)`, until `start` reaches `totalSize`. -/
def chunkBounds (totalSize start : Nat) : List (Nat × Nat) :=
  if start < totalSize then
    (start, min (start + CHUNK_SIZE) (totalSize - 1)) ::
      chunkBounds totalSize (start + CHUNK_SIZE + 1)
  else []
termination_by totalSize - start
decreasing_by omega

/-- The request the chunk loop issues for the bounds `b`. -/
def rangeRequest (url : String) (headers : List (String × String))
    (b : Nat × Nat) : Request :=
  { url := url, headers := headers, range := some b }

/-! ## Concrete fixtures for witnesses and counterexamples -/

/-- A format with only a raw URL and a nominal bitrate of 128000. -/
def fmt128 : AdaptiveFormat :=
  { mime_type := some "audio/webm", has_audio := some true,
    bitrate := some 128000, average_bitrate := none,
    url := some "https://e/128", signature_cipher := none,
    signatureCipher := none, cipher := none, decipherFn := none }

/-- A format with no nominal bitrate and an average bitrate of 160000. -/
def fmt160avg : AdaptiveFormat :=
  { mime_type := some "audio/webm", has_audio := some true,
    bitrate := none, average_bitrate := some 160000,
    url := some "https://e/160", signature_cipher := none,
    signatureCipher := none, cipher := none, decipherFn := none }

/-- A format with a nominal bitrate of 196000. -/
def fmt196 : AdaptiveFormat :=
  { mime_type := some "audio/webm", has_audio := some true,
    bitrate := some 196000, average_bitrate := none,
    url := some "https://e/196", signature_cipher := none,
    signatureCipher := none, cipher := none, decipherFn := none }

/-- First of two formats tied at effective bitrate 128000. -/
def fmtTieA : AdaptiveFormat :=
  { fmt128 with url := some "https://e/tieA" }

/-- Second of the tied pair: same effective bitrate, later in the list. -/
def fmtTieB : AdaptiveFormat :=
  { fmt128 with url := some "https://e/tieB", average_bitrate := some 1 }

/-- Placeholder metadata record. -/
def noBasicInfo : BasicInfo :=
  { title := none, duration := none, channelName := none, thumbnail := none }

/-- An environment in which every external capability fails. -/
def envAllFail : Env :=
  { nodeType := "fly", player := none,
    getInfo := fun _ _ _ => .error "query failed",
    fetch := fun _ => .error "network down",
    ytDlp := fun _ => .error "yt-dlp failed" }

/-- An environment whose metadata queries yield no streaming data (the
persona loop skips without recording an error) and whose Legacy
Extractor fails with a distinctive message. -/
def envSkipLegacyBoom : Env :=
  { nodeType := "fly", player := none,
    getInfo := fun _ _ _ => .ok { streaming_data := none, basic_info := noBasicInfo },
    fetch := fun _ => .error "network down",
    ytDlp := fun _ => .error "LEGACY BOOM" }

/-- An environment whose metadata queries succeed with one usable audio
format but whose network is down, so every download throws. -/
def envDownloadFails : Env :=
  { nodeType := "fly", player := none,
    getInfo := fun _ _ _ => .ok
      { streaming_data := some { adaptive_formats := [fmt128] },
        basic_info := noBasicInfo },
    fetch := fun _ => .error "netfail",
    ytDlp := fun _ => .error "yt-dlp failed" }

/-- The 1000-byte test payload of the full-GET witness. -/
def body1000 : List Nat := List.replicate 1000 7

/-- An environment whose full (unranged) GET answers 200 with declared
content length 1000 and a 1000-byte body, and which refuses range
requests. -/
def envFullGet : Env :=
  { nodeType := "fly", player := none,
    getInfo := fun _ _ _ => .error "unused",
    fetch := fun r =>
      match r.range with
      | none => .ok { status := 200, contentLengthHdr := some "1000",
                      contentRangeHdr := none, body := body1000 }
      | some _ => .error "range requests refused",
    ytDlp := fun _ => .error "unused" }

/-- An environment whose first range request answers 206 with a 3-byte
body covering the whole reported total of 3. -/
def envSingleChunk : Env :=
  { nodeType := "fly", player := none,
    getInfo := fun _ _ _ => .error "unused",
    fetch := fun r =>
      if r.range = some (0, CHUNK_SIZE) then
        .ok { status := 206, contentLengthHdr := none,
              contentRangeHdr := some "bytes 0-2/3", body := [10, 20, 30] }
      else .error "unexpected request",
    ytDlp := fun _ => .error "unused" }

/-- The constant-37 resource of the chunked-download witness. -/
def res37 : Nat → Nat := fun _ => 37

/-- A well-behaved range server for a 1,200,000-byte resource: every
range request is answered 206 with exactly the requested window of
`res37` and a content-range total of 1,200,000. -/
def envChunked : Env :=
  { nodeType := "fly", player := none,
    getInfo := fun _ _ _ => .error "unused",
    fetch := fun r =>
      match r.range with
      | some (s, e) =>
        .ok { status := 206, contentLengthHdr := none,
              contentRangeHdr := some "bytes 0-524287/1200000",
              body := resSlice res37 s (e + 1 - s) }
      | none => .error "full GET refused",
    ytDlp := fun _ => .error "unused" }

/-! ## Helper lemmas -/

theorem extractAudio_candidates (env : Env) (videoId : String)
    (poToken vd : Option String) (ord : Option (List String)) :
    (extractAudio env videoId poToken vd ord).candidates
      = clientsFor env.nodeType ord := by
  simp only [extractAudio]
  split
  · rfl
  · split <;> rfl

theorem extractAudio_no_clients (env : Env) (videoId : String)
    (poToken vd : Option String) (ord : Option (List String))
    (h : clientsFor env.nodeType ord = []) :
    (extractAudio env videoId poToken vd ord).attempted = []
    ∧ (extractAudio env videoId poToken vd ord).legacyCalls = 1 := by
  simp only [extractAudio, h]
  cases hyt : env.ytDlp videoId <;> simp [tryClients, hyt]

theorem selectBest_charact (l : List AdaptiveFormat) :
    ∀ b : AdaptiveFormat,
      (selectBest b l = b ∧ ∀ g ∈ l, effectiveBitrate g ≤ effectiveBitrate b)
      ∨ (∃ pre x suf, l = pre ++ x :: suf ∧ selectBest b l = x
          ∧ effectiveBitrate b < effectiveBitrate x
          ∧ (∀ g ∈ pre, effectiveBitrate g < effectiveBitrate x)
          ∧ ∀ g ∈ suf, effectiveBitrate g ≤ effectiveBitrate x) := by
  induction l with
  | nil =>
    intro b
    left
    exact ⟨rfl, by simp⟩
  | cons c rest ih =>
    intro b
    by_cases hcb : effectiveBitrate b < effectiveBitrate c
    · have hsel : selectBest b (c :: rest) = selectBest c rest := by
        simp [selectBest, hcb]
      rcases ih c with ⟨h1, h2⟩ | ⟨pre, x, suf, heq, hx, hbx, hpre, hsuf⟩
      · right
        exact ⟨[], c, rest, rfl, by rw [hsel, h1], hcb, by simp, h2⟩
      · right
        refine ⟨c :: pre, x, suf, by simp [heq], by rw [hsel, hx],
          lt_trans hcb hbx, ?_, hsuf⟩
        intro g hg
        rcases List.mem_cons.mp hg with rfl | hg
        · exact hbx
        · exact hpre g hg
    · push_neg at hcb
      have hsel : selectBest b (c :: rest) = selectBest b rest := by
        simp [selectBest, Nat.not_lt.mpr hcb]
      rcases ih b with ⟨h1, h2⟩ | ⟨pre, x, suf, heq, hx, hbx, hpre, hsuf⟩
      · left
        refine ⟨by rw [hsel, h1], ?_⟩
        intro g hg
        rcases List.mem_cons.mp hg with rfl | hg
        · exact hcb
        · exact h2 g hg
      · right
        refine ⟨c :: pre, x, suf, by simp [heq], by rw [hsel, hx], hbx, ?_, hsuf⟩
        intro g hg
        rcases List.mem_cons.mp hg with rfl | hg
        · exact lt_of_le_of_lt hcb hbx
        · exact hpre g hg

/-! ## Claims -/

/-- C9: the Session Manager is idempotent and failure-atomic.  Once the
singleton holds a session `s`, every call returns exactly `s` with the
state unchanged, whatever a fresh creation would have produced (so no
re-creation is observable); a failed first creation propagates the error
and leaves the state `none`; a retry from the `none` state creates from
scratch and caches the result. -/
theorem getInnertube_singleton :
    (∀ (α : Type) (create : Except String α) (s : α),
        getInnertube create (some s) = (.ok s, some s))
    ∧ (∀ (α : Type) (e : String),
        getInnertube (α := α) (.error e) none = (.error e, none))
    ∧ (∀ (α : Type) (s : α),
        getInnertube (.ok s) none = (.ok s, some s)) :=
  ⟨fun _ _ _ => rfl, fun _ _ => rfl, fun _ _ => rfl⟩

/-- C10: the `visitorData` argument has no effect.  Two calls to
`extractAudio` differing only in it produce identical outcomes — the
same result or error, candidate list, issued metadata queries, Legacy
Extractor invocations and fetch requests — because the parameter is
accepted but never read. -/
theorem extractAudio_visitorData_noninterference (env : Env) (videoId : String)
    (poToken vd1 vd2 : Option String) (ord : Option (List String)) :
    extractAudio env videoId poToken vd1 ord
      = extractAudio env videoId poToken vd2 ord := rfl

/-- C4 (counterexample): a caller-supplied non-empty persona list that
filters to empty does NOT fall back to the default ordering — the
candidate list is empty and no persona is attempted, while the default
ordering for this (non-residential) node would be
`["ANDROID", "TV_EMBEDDED", "WEB"]`. -/
theorem default_not_used_when_filtered_empty :
    (extractAudio envAllFail "vid" none none (some ["X"])).candidates = []
    ∧ (extractAudio envAllFail "vid" none none (some ["X"])).attempted = []
    ∧ defaultOrder envAllFail.nodeType = ["ANDROID", "TV_EMBEDDED", "WEB"]
    ∧ (extractAudio envAllFail "vid" none none (some ["X"])).candidates
        ≠ defaultOrder envAllFail.nodeType := by
  refine ⟨rfl, rfl, rfl, by decide⟩

/-- C4 (amended): when the caller supplies no persona list, or an empty
one, the candidate ordering is derived from the node's declared type —
`["WEB", "ANDROID", "TV_EMBEDDED"]` for a "residential" node and
`["ANDROID", "TV_EMBEDDED", "WEB"]` otherwise — independent of the
videoId.  (A supplied non-empty list that filters to empty is NOT
replaced by the defaults; see the counterexample.) -/
theorem extractAudio_default_order (env : Env) (videoId : String)
    (poToken vd : Option String) :
    ((extractAudio env videoId poToken vd none).candidates
        = if env.nodeType == "residential"
          then ["WEB", "ANDROID", "TV_EMBEDDED"]
          else ["ANDROID", "TV_EMBEDDED", "WEB"])
    ∧ ((extractAudio env videoId poToken vd (some [])).candidates
        = if env.nodeType == "residential"
          then ["WEB", "ANDROID", "TV_EMBEDDED"]
          else ["ANDROID", "TV_EMBEDDED", "WEB"]) := by
  rw [extractAudio_candidates, extractAudio_candidates]
  exact ⟨rfl, rfl⟩

/-- C3: a caller-supplied non-empty persona list is filtered to the
recognized names, preserving the supplied order (the candidate list is a
sublist of the supplied one and keeps exactly the recognized members);
when every supplied name is unrecognized, zero personas are attempted
(the empty filtered list is not replaced by the defaults) and the Legacy
Extractor is invoked exactly once. -/
theorem extractAudio_filtered_personas (env : Env) (videoId : String)
    (poToken vd : Option String) (ord : List String) (hne : ord ≠ []) :
    ((extractAudio env videoId poToken vd (some ord)).candidates
        = ord.filter (fun c => VALID_CLIENTS.contains c))
    ∧ (extractAudio env videoId poToken vd (some ord)).candidates.Sublist ord
    ∧ (∀ c, c ∈ (extractAudio env videoId poToken vd (some ord)).candidates
          ↔ c ∈ ord ∧ VALID_CLIENTS.contains c = true)
    ∧ ((∀ c ∈ ord, VALID_CLIENTS.contains c = false) →
        (extractAudio env videoId poToken vd (some ord)).attempted = []
        ∧ (extractAudio env videoId poToken vd (some ord)).legacyCalls = 1) := by
  have hc : (extractAudio env videoId poToken vd (some ord)).candidates
      = ord.filter (fun c => VALID_CLIENTS.contains c) := by
    rw [extractAudio_candidates]
    have hlen : ord.length ≠ 0 := fun h => hne (List.length_eq_zero.mp h)
    simp [clientsFor, hlen]
  refine ⟨hc, ?_, ?_, ?_⟩
  · rw [hc]
    exact List.filter_sublist ord
  · intro c
    rw [hc]
    simp [List.mem_filter]
  · intro hall
    have hnil : ord.filter (fun c => VALID_CLIENTS.contains c) = [] := by
      apply List.filter_eq_nil_iff.mpr
      intro c hcmem
      rw [hall c hcmem]
      simp
    refine extractAudio_no_clients env videoId poToken vd (some ord) ?_
    calc clientsFor env.nodeType (some ord)
        = (extractAudio env videoId poToken vd (some ord)).candidates :=
          (extractAudio_candidates env videoId poToken vd (some ord)).symm
      _ = [] := hc.trans hnil

/-- C3 (witness): supplying `["X", "Y"]` (both invalid) attempts zero
personas and invokes the Legacy Extractor exactly once. -/
theorem extractAudio_filtered_personas_witness :
    (extractAudio envAllFail "abcdefghijk" none none (some ["X", "Y"])).attempted = []
    ∧ (extractAudio envAllFail "abcdefghijk" none none (some ["X", "Y"])).legacyCalls = 1 :=
  (extractAudio_filtered_personas envAllFail "abcdefghijk" none none ["X", "Y"]
      (by decide)).2.2.2 (by decide)

/-- C5: the selected audio format is one of the candidates, its
effective bitrate (`bitrate ?? average_bitrate ?? 0`) is maximal, and
every earlier-listed candidate has a strictly smaller effective bitrate
(so ties resolve to the earliest-encountered format); in particular the
196000-bitrate format wins over 128000 and an average of 160000, and a
tied pair selects the first. -/
theorem bestAudio_selection :
    (∀ (f0 : AdaptiveFormat) (rest : List AdaptiveFormat),
        selectBest f0 rest ∈ f0 :: rest
        ∧ (∀ g ∈ f0 :: rest,
            effectiveBitrate g ≤ effectiveBitrate (selectBest f0 rest))
        ∧ ∃ pre suf, f0 :: rest = pre ++ selectBest f0 rest :: suf
            ∧ ∀ g ∈ pre, effectiveBitrate g < effectiveBitrate (selectBest f0 rest))
    ∧ selectBest fmt128 [fmt160avg, fmt196] = fmt196
    ∧ effectiveBitrate (selectBest fmt128 [fmt160avg, fmt196]) = 196000
    ∧ selectBest fmtTieA [fmtTieB] = fmtTieA := by
  refine ⟨?_, rfl, rfl, rfl⟩
  intro f0 rest
  rcases selectBest_charact rest f0 with ⟨h1, h2⟩ | ⟨pre, x, suf, heq, hx, hbx, hpre, hsuf⟩
  · refine ⟨by rw [h1]; exact List.mem_cons_self _ _, ?_, [], rest, by simp [h1], by simp⟩
    intro g hg
    rcases List.mem_cons.mp hg with rfl | hg
    · rw [h1]
    · rw [h1]
      exact h2 g hg
  · refine ⟨?_, ?_, f0 :: pre, suf, ?_, ?_⟩
    · rw [hx, heq]
      exact List.mem_cons_of_mem _ (by simp)
    · intro g hg
      rw [hx]
      rcases List.mem_cons.mp hg with rfl | hg
      · exact le_of_lt hbx
      · rw [heq] at hg
        rcases List.mem_append.mp hg with hg | hg
        · exact le_of_lt (hpre g hg)
        · rcases List.mem_cons.mp hg with rfl | hg
          · exact le_refl _
          · exact hsuf g hg
    · rw [hx, heq]
      simp
    · intro g hg
      rw [hx]
      rcases List.mem_cons.mp hg with rfl | hg
      · exact hbx
      · exact hpre g hg

theorem chunkLoop_congr (env1 env2 : Env) (url : String)
    (headers : List (String × String))
    (hagree : ∀ r : Request, r.range ≠ none → env1.fetch r = env2.fetch r)
    (totalSize : Nat) :
    ∀ start, chunkLoop env1 url headers totalSize start
      = chunkLoop env2 url headers totalSize start := by
  suffices h : ∀ n start, totalSize - start ≤ n →
      chunkLoop env1 url headers totalSize start
        = chunkLoop env2 url headers totalSize start by
    intro start
    exact h (totalSize - start) start le_rfl
  intro n
  induction n with
  | zero =>
    intro start h0
    conv_lhs => rw [chunkLoop.eq_def]
    conv_rhs => rw [chunkLoop.eq_def]
    rw [dif_neg (by omega), dif_neg (by omega)]
  | succ n ih =>
    intro start hle
    conv_lhs => rw [chunkLoop.eq_def]
    conv_rhs => rw [chunkLoop.eq_def]
    by_cases h : start < totalSize
    · rw [dif_pos h, dif_pos h]
      simp only
      rw [hagree { url := url, headers := headers, range := some (start, min (start + CHUNK_SIZE) (totalSize - 1)) } (by simp)]
      cases hf : env2.fetch { url := url, headers := headers, range := some (start, min (start + CHUNK_SIZE) (totalSize - 1)) } with
      | error msg => rfl
      | ok resp =>
        simp only
        rw [ih (start + CHUNK_SIZE + 1) (by omega)]
    · rw [dif_neg h, dif_neg h]

theorem chunkLoopReqs_congr (env1 env2 : Env) (url : String)
    (headers : List (String × String))
    (hagree : ∀ r : Request, r.range ≠ none → env1.fetch r = env2.fetch r)
    (totalSize : Nat) :
    ∀ start, chunkLoopReqs env1 url headers totalSize start
      = chunkLoopReqs env2 url headers totalSize start := by
  suffices h : ∀ n start, totalSize - start ≤ n →
      chunkLoopReqs env1 url headers totalSize start
        = chunkLoopReqs env2 url headers totalSize start by
    intro start
    exact h (totalSize - start) start le_rfl
  intro n
  induction n with
  | zero =>
    intro start h0
    conv_lhs => rw [chunkLoopReqs.eq_def]
    conv_rhs => rw [chunkLoopReqs.eq_def]
    rw [dif_neg (by omega), dif_neg (by omega)]
  | succ n ih =>
    intro start hle
    conv_lhs => rw [chunkLoopReqs.eq_def]
    conv_rhs => rw [chunkLoopReqs.eq_def]
    by_cases h : start < totalSize
    · rw [dif_pos h, dif_pos h]
      simp only
      rw [hagree { url := url, headers := headers, range := some (start, min (start + CHUNK_SIZE) (totalSize - 1)) } (by simp)]
      cases hf : env2.fetch { url := url, headers := headers, range := some (start, min (start + CHUNK_SIZE) (totalSize - 1)) } with
      | error msg => rfl
      | ok resp =>
        simp only
        rw [ih (start + CHUNK_SIZE + 1) (by omega)]
    · rw [dif_neg h, dif_neg h]

theorem downloadChunked_congr (env1 env2 : Env) (url : String)
    (headers : List (String × String))
    (hagree : ∀ r : Request, r.range ≠ none → env1.fetch r = env2.fetch r) :
    downloadChunked env1 url headers = downloadChunked env2 url headers := by
  simp only [downloadChunked]
  rw [hagree { url := url, headers := headers, range := some (0, CHUNK_SIZE) } (by simp)]
  cases hf : env2.fetch { url := url, headers := headers, range := some (0, CHUNK_SIZE) } with
  | error msg => rfl
  | ok resp =>
    simp only
    rw [chunkLoop_congr env1 env2 url headers hagree,
      chunkLoopReqs_congr env1 env2 url headers hagree]

/-- C8: single-chunk short-circuit.  If the first range response (for
bytes 0-CHUNK_SIZE) is acceptable and non-empty, and its content-range
header is absent or unparsable against `bytes <start>-<end>/<total>`, or
the first chunk's length already reaches the reported total, then
`downloadChunked` returns the first chunk alone having issued exactly
that one request — no second range request. -/
theorem downloadChunked_single_chunk
    (env : Env) (url : String) (headers : List (String × String)) (resp : Response)
    (hfetch : env.fetch { url := url, headers := headers, range := some (0, CHUNK_SIZE) }
      = .ok resp)
    (hok : resp.ok = true ∨ resp.status = 206)
    (hne : resp.body ≠ [])
    (hshort : resp.contentRangeHdr = none
      ∨ (∃ s, resp.contentRangeHdr = some s ∧ parseContentRangeTotal s = none)
      ∨ resp.body.length ≥ crTotal resp) :
    downloadChunked env url headers
      = (.ok resp.body,
         [{ url := url, headers := headers, range := some (0, CHUNK_SIZE) }]) := by
  have hcond : (!resp.ok && decide (resp.status ≠ 206)) = false := by
    rcases hok with h | h <;> simp [h]
  have hlen : ¬ resp.body.length = 0 := by
    simpa [List.length_eq_zero] using hne
  have hfinal : (decide (crTotal resp = 0) || decide (resp.body.length ≥ crTotal resp))
      = true := by
    rcases hshort with h | ⟨s, hs, hp⟩ | h
    · simp [crTotal, h]
    · simp [crTotal, hs, hp]
    · simp [h]
  simp only [downloadChunked, hfetch]
  rw [if_neg (by rw [hcond]; simp), if_neg hlen, if_pos hfinal]

/-- C8 (witness): a 3-byte first chunk whose content-range reports total
3 is returned alone, with exactly one request issued. -/
theorem downloadChunked_single_chunk_witness :
    downloadChunked envSingleChunk "u" youtubeHeaders
      = (.ok [10, 20, 30],
         [{ url := "u", headers := youtubeHeaders, range := some (0, CHUNK_SIZE) }]) :=
  downloadChunked_single_chunk envSingleChunk "u" youtubeHeaders
    { status := 206, contentLengthHdr := none,
      contentRangeHdr := some "bytes 0-2/3", body := [10, 20, 30] }
    rfl (Or.inr rfl) (by decide) (Or.inr (by decide))

/-- C7: full-GET phase.  For an OK response whose declared content
length is within the 50 MiB cap and whose body is non-empty, exactly
that body is returned and the single unranged request is the only one
issued (no range request).  A declared content length over the cap
falls through to the chunked phase, and — since the body is never read —
the outcome is the same for any two environments that agree on ranged
requests, whatever the oversized bodies contain.  A non-OK response or
an empty body likewise falls through to the chunked phase. -/
theorem downloadAudio_fullget (env : Env) (url : String) (resp : Response)
    (hfetch : env.fetch { url := url, headers := youtubeHeaders, range := none }
      = .ok resp) :
    (resp.ok = true →
      (∀ n, jsParseInt (jsOrStr resp.contentLengthHdr "0") = some n →
        n ≤ MAX_FULL_GET_SIZE) →
      resp.body ≠ [] →
      downloadAudio env url
        = (.ok resp.body, [{ url := url, headers := youtubeHeaders, range := none }]))
    ∧ (resp.ok = true →
      (∃ n, jsParseInt (jsOrStr resp.contentLengthHdr "0") = some n
        ∧ MAX_FULL_GET_SIZE < n) →
      downloadAudio env url
        = ((downloadChunked env url youtubeHeaders).1,
           { url := url, headers := youtubeHeaders, range := none }
             :: (downloadChunked env url youtubeHeaders).2))
    ∧ (resp.ok = false →
      downloadAudio env url
        = ((downloadChunked env url youtubeHeaders).1,
           { url := url, headers := youtubeHeaders, range := none }
             :: (downloadChunked env url youtubeHeaders).2))
    ∧ (resp.ok = true →
      (∀ n, jsParseInt (jsOrStr resp.contentLengthHdr "0") = some n →
        n ≤ MAX_FULL_GET_SIZE) →
      resp.body = [] →
      downloadAudio env url
        = ((downloadChunked env url youtubeHeaders).1,
           { url := url, headers := youtubeHeaders, range := none }
             :: (downloadChunked env url youtubeHeaders).2))
    ∧ (∀ (env2 : Env) (resp2 : Response),
      (∀ r : Request, r.range ≠ none → env2.fetch r = env.fetch r) →
      env2.fetch { url := url, headers := youtubeHeaders, range := none } = .ok resp2 →
      resp.ok = true → resp2.ok = true →
      (∃ n, jsParseInt (jsOrStr resp.contentLengthHdr "0") = some n
        ∧ MAX_FULL_GET_SIZE < n) →
      (∃ n, jsParseInt (jsOrStr resp2.contentLengthHdr "0") = some n
        ∧ MAX_FULL_GET_SIZE < n) →
      downloadAudio env2 url = downloadAudio env url) := by
  have key : ∀ (e : Env) (r : Response),
      e.fetch { url := url, headers := youtubeHeaders, range := none } = .ok r →
      r.ok = true →
      (∃ n, jsParseInt (jsOrStr r.contentLengthHdr "0") = some n
        ∧ MAX_FULL_GET_SIZE < n) →
      downloadAudio e url
        = ((downloadChunked e url youtubeHeaders).1,
           { url := url, headers := youtubeHeaders, range := none }
             :: (downloadChunked e url youtubeHeaders).2) := by
    intro e r hf hok ⟨n, hp, hgt⟩
    have hcapb : (match jsParseInt (jsOrStr r.contentLengthHdr "0") with
        | some n => decide (n > MAX_FULL_GET_SIZE)
        | none => false) = true := by
      simp only [hp]
      exact decide_eq_true hgt
    simp only [downloadAudio, hf]
    rw [if_pos hok, if_pos hcapb]
  refine ⟨?_, ?_, ?_, ?_, ?_⟩
  · intro hok hcap hbody
    have hcapb : (match jsParseInt (jsOrStr resp.contentLengthHdr "0") with
        | some n => decide (n > MAX_FULL_GET_SIZE)
        | none => false) = false := by
      cases hp : jsParseInt (jsOrStr resp.contentLengthHdr "0") with
      | none => rfl
      | some n =>
        simp only
        exact decide_eq_false (Nat.not_lt.mpr (hcap n hp))
    simp only [downloadAudio, hfetch]
    rw [if_pos hok, if_neg (by rw [hcapb]; simp),
      if_pos (List.length_pos.mpr hbody)]
  · intro hok hcap
    exact key env resp hfetch hok hcap
  · intro hok
    simp only [downloadAudio, hfetch]
    rw [if_neg (by rw [hok]; simp)]
  · intro hok hcap hbody
    have hcapb : (match jsParseInt (jsOrStr resp.contentLengthHdr "0") with
        | some n => decide (n > MAX_FULL_GET_SIZE)
        | none => false) = false := by
      cases hp : jsParseInt (jsOrStr resp.contentLengthHdr "0") with
      | none => rfl
      | some n =>
        simp only
        exact decide_eq_false (Nat.not_lt.mpr (hcap n hp))
    simp only [downloadAudio, hfetch]
    rw [if_pos hok, if_neg (by rw [hcapb]; simp),
      if_neg (by rw [hbody]; simp)]
  · intro env2 resp2 hagree hfetch2 hok hok2 hcap hcap2
    rw [key env resp hfetch hok hcap, key env2 resp2 hfetch2 hok2 hcap2,
      downloadChunked_congr env2 env url youtubeHeaders hagree]

/-- C7 (witness): a 200 response with content-length 1000 and a
1000-byte body is returned exactly, the only issued request being the
unranged full GET. -/
theorem downloadAudio_fullget_witness :
    downloadAudio envFullGet "u"
      = (.ok body1000, [{ url := "u", headers := youtubeHeaders, range := none }])
    ∧ body1000.length = 1000 := by
  constructor
  · refine (downloadAudio_fullget envFullGet "u"
      { status := 200, contentLengthHdr := some "1000",
        contentRangeHdr := none, body := body1000 } rfl).1 rfl ?_ ?_
    · intro n hn
      rw [show jsParseInt (jsOrStr (some "1000") "0") = some 1000 by decide] at hn
      injection hn with h
      rw [← h]
      decide
    · intro h
      have h2 := congrArg List.length h
      rw [body1000, List.length_replicate] at h2
      simp at h2
  · rw [body1000, List.length_replicate]

/-- C2: a download failure for one persona is never fatal.  If a
persona's metadata query succeeds with audio-capable formats, the best
format's URL resolves, and the Audio Downloader throws `e`, then the
attempt records the failure `e`, the loop continues with the remaining
personas carrying `e` as the recorded last error (prepending only this
persona's instrumentation), and when such a persona is the last one the
call proceeds to invoke the Legacy Extractor exactly once instead of
aborting. -/
theorem downloadFailure_not_fatal
    (env : Env) (videoId : String) (poToken vd : Option String) (client : String)
    (info : Info) (sd : StreamingData) (f0 : AdaptiveFormat)
    (fs : List AdaptiveFormat) (e : String)
    (hinfo : env.getInfo videoId client
      (if strTruthy poToken && client == "WEB" then poToken else none) = .ok info)
    (hsd : info.streaming_data = some sd)
    (hfilter : sd.adaptive_formats.filter isAudioFormat = f0 :: fs)
    (hurl : strTruthy (resolveUrl env.player (selectBest f0 fs)) = true)
    (hdl : (downloadAudio env
      ((resolveUrl env.player (selectBest f0 fs)).getD "")).1 = .error e) :
    ((attemptClient env videoId poToken client).1 = .failed e)
    ∧ (∀ (rest : List String) (lastError : Option String),
        tryClients env videoId poToken (client :: rest) lastError
          = ((tryClients env videoId poToken rest (some e)).1,
             (tryClients env videoId poToken rest (some e)).2.1,
             client :: (tryClients env videoId poToken rest (some e)).2.2.1,
             (attemptClient env videoId poToken client).2
               ++ (tryClients env videoId poToken rest (some e)).2.2.2))
    ∧ (VALID_CLIENTS.contains client = true →
        (extractAudio env videoId poToken vd (some [client])).legacyCalls = 1) := by
  have hne : sd.adaptive_formats ≠ [] := by
    intro h
    rw [h] at hfilter
    simp at hfilter
  have hlen : ¬ sd.adaptive_formats.length = 0 := by
    simpa [List.length_eq_zero] using hne
  have h1 : (attemptClient env videoId poToken client).1 = .failed e := by
    simp only [attemptClient, hinfo, hsd, hfilter]
    rw [if_neg hlen]
    simp only [hfilter, hurl, Bool.not_true]
    rw [if_neg (by simp)]
    simp only [hdl]
  have h2 : ∀ (rest : List String) (lastError : Option String),
      tryClients env videoId poToken (client :: rest) lastError
        = ((tryClients env videoId poToken rest (some e)).1,
           (tryClients env videoId poToken rest (some e)).2.1,
           client :: (tryClients env videoId poToken rest (some e)).2.2.1,
           (attemptClient env videoId poToken client).2
             ++ (tryClients env videoId poToken rest (some e)).2.2.2) := by
    intro rest lastError
    simp only [tryClients, h1]
  refine ⟨h1, h2, ?_⟩
  intro hcv
  have hmem : client ∈ VALID_CLIENTS := by
    simpa using hcv
  have hcl : clientsFor env.nodeType (some [client]) = [client] := by
    simp [clientsFor, hmem]
  have ht : (tryClients env videoId poToken [client] none).1 = none := by
    rw [h2 [] (none : Option String)]
    simp [tryClients]
  simp only [extractAudio, hcl]
  rw [ht]
  cases hyt : env.ytDlp videoId <;> rfl

/-- C2 (witness): with a working metadata query, one usable audio format
and a dead network, the ANDROID attempt records the download error
"netfail" and the call still reaches the Legacy Extractor exactly
once. -/
theorem downloadFailure_not_fatal_witness :
    ((attemptClient envDownloadFails "vid" none "ANDROID").1
      = AttemptResult.failed "netfail")
    ∧ (extractAudio envDownloadFails "vid" none none (some ["ANDROID"])).legacyCalls
      = 1 := by
  have h := downloadFailure_not_fatal envDownloadFails "vid" none none "ANDROID"
    { streaming_data := some { adaptive_formats := [fmt128] },
      basic_info := noBasicInfo }
    { adaptive_formats := [fmt128] } fmt128 [] "netfail"
    rfl rfl rfl rfl rfl
  exact ⟨h.1, h.2.2 (by decide)⟩

theorem lastErrorState_or (errs : List String) :
    ∀ le, lastErrorState le errs = (errs.getLast?).or le := by
  induction errs with
  | nil => intro le; rfl
  | cons e errs ih =>
    intro le
    have hstep : lastErrorState le (e :: errs) = lastErrorState (some e) errs := rfl
    rw [hstep, ih (some e)]
    cases h : errs.getLast? with
    | none =>
      cases errs with
      | nil => rfl
      | cons e2 errs2 => simp at h
    | some x =>
      have hx : (e :: errs).getLast? = some x := by
        rw [List.getLast?_cons, h]
        rfl
      rw [hx]
      rfl

theorem tryClients_all_fail (env : Env) (videoId : String) (poToken : Option String) :
    ∀ (clients : List String) (le : Option String),
      (∀ c ∈ clients, isSuccessAttempt (attemptClient env videoId poToken c).1 = false) →
      (tryClients env videoId poToken clients le).1 = none
      ∧ (tryClients env videoId poToken clients le).2.1
          = lastErrorState le (personaErrors env videoId poToken clients) := by
  intro clients
  induction clients with
  | nil =>
    intro le _
    exact ⟨rfl, rfl⟩
  | cons c rest ih =>
    intro le h
    have hc := h c (List.mem_cons_self _ _)
    cases ha : (attemptClient env videoId poToken c).1 with
    | success a =>
      rw [ha] at hc
      simp [isSuccessAttempt] at hc
    | skip =>
      have hr := ih le (fun x hx => h x (List.mem_cons_of_mem _ hx))
      simp only [tryClients, ha]
      refine ⟨hr.1, ?_⟩
      rw [hr.2]
      congr 1
      simp [personaErrors, ha]
    | failed e =>
      have hr := ih (some e) (fun x hx => h x (List.mem_cons_of_mem _ hx))
      simp only [tryClients, ha]
      refine ⟨hr.1, ?_⟩
      rw [hr.2]
      simp [personaErrors, lastErrorState, ha]

/-- C1 (counterexample): with one persona that fails without recording a
persona-level error (its query returns no streaming data) and a Legacy
Extractor that fails with "LEGACY BOOM", the call throws the fixed
generic error, NOT the Legacy Extractor's error — refuting the claim
that the legacy error is surfaced when no persona error exists. -/
theorem legacy_error_not_surfaced :
    (extractAudio envSkipLegacyBoom "vid" none none (some ["ANDROID"])).result
      = .error "No client returned playable streaming data"
    ∧ envSkipLegacyBoom.ytDlp "vid" = .error "LEGACY BOOM"
    ∧ (extractAudio envSkipLegacyBoom "vid" none none (some ["ANDROID"])).result
      ≠ .error "LEGACY BOOM"
    ∧ (extractAudio envSkipLegacyBoom "vid" none none (some ["ANDROID"])).legacyCalls
      = 1 := by
  refine ⟨rfl, rfl, ?_, rfl⟩
  intro hcontra
  rw [show (extractAudio envSkipLegacyBoom "vid" none none (some ["ANDROID"])).result
      = Except.error "No client returned playable streaming data" from rfl] at hcontra
  injection hcontra with hmsg
  exact absurd hmsg (by decide)

/-- C1 (amended): when every persona attempt fails and the Legacy
Extractor also fails, the thrown error is the most recent recorded
persona-level error if one exists, and otherwise the fixed generic
error "No client returned playable streaming data" — the Legacy
Extractor's own error is caught, logged and never surfaced.  The Legacy
Extractor is invoked exactly once. -/
theorem extractAudio_error_surface
    (env : Env) (videoId : String) (poToken vd : Option String)
    (ord : Option (List String)) (le : String)
    (hfail : ∀ c ∈ clientsFor env.nodeType ord,
      isSuccessAttempt (attemptClient env videoId poToken c).1 = false)
    (hyt : env.ytDlp videoId = .error le) :
    (extractAudio env videoId poToken vd ord).result
      = .error (((personaErrors env videoId poToken
          (clientsFor env.nodeType ord)).getLast?).getD
          "No client returned playable streaming data")
    ∧ (extractAudio env videoId poToken vd ord).legacyCalls = 1 := by
  have h := tryClients_all_fail env videoId poToken (clientsFor env.nodeType ord)
    none hfail
  simp only [extractAudio]
  rw [h.1, hyt]
  rw [h.2, lastErrorState_or]
  simp

/-- C1 (witness): one persona whose query throws "query failed" plus a
failing Legacy Extractor surfaces "query failed". -/
theorem extractAudio_error_surface_witness :
    (extractAudio envAllFail "vid" none none (some ["ANDROID"])).result
      = .error "query failed"
    ∧ (extractAudio envAllFail "vid" none none (some ["ANDROID"])).legacyCalls
      = 1 := by
  have h := extractAudio_error_surface envAllFail "vid" none none (some ["ANDROID"])
    "yt-dlp failed" (by decide) rfl
  have hmsg : ((personaErrors envAllFail "vid" none
      (clientsFor envAllFail.nodeType (some ["ANDROID"]))).getLast?).getD
      "No client returned playable streaming data" = "query failed" := by decide
  exact ⟨by rw [h.1, hmsg], h.2⟩

theorem resSlice_length (res : Nat → Nat) (s n : Nat) :
    (resSlice res s n).length = n := by
  simp [resSlice]

theorem resSlice_append (res : Nat → Nat) (s a b : Nat) :
    resSlice res s a ++ resSlice res (s + a) b = resSlice res s (a + b) := by
  simp only [resSlice, List.range_add, List.map_append, List.map_map]
  congr 1
  apply List.map_congr_left
  intro i _
  simp [Function.comp, Nat.add_assoc]

theorem chunkLoop_spec (env : Env) (url : String) (res : Nat → Nat) (crs : String)
    (T : Nat)
    (hfetch : ∀ s e,
      env.fetch { url := url, headers := youtubeHeaders, range := some (s, e) }
        = .ok { status := 206, contentLengthHdr := none,
                contentRangeHdr := some crs, body := resSlice res s (e + 1 - s) }) :
    ∀ start, chunkLoop env url youtubeHeaders T start
        = .ok ((chunkBounds T start).map (fun b => resSlice res b.1 (b.2 + 1 - b.1)))
      ∧ chunkLoopReqs env url youtubeHeaders T start
        = (chunkBounds T start).map
            (fun b => { url := url, headers := youtubeHeaders, range := some b }) := by
  suffices h : ∀ n start, T - start ≤ n →
      chunkLoop env url youtubeHeaders T start
        = .ok ((chunkBounds T start).map (fun b => resSlice res b.1 (b.2 + 1 - b.1)))
      ∧ chunkLoopReqs env url youtubeHeaders T start
        = (chunkBounds T start).map
            (fun b => { url := url, headers := youtubeHeaders, range := some b }) by
    intro start
    exact h (T - start) start le_rfl
  intro n
  induction n with
  | zero =>
    intro start h0
    rw [chunkLoop.eq_def, dif_neg (by omega)]
    rw [chunkLoopReqs.eq_def, dif_neg (by omega)]
    rw [chunkBounds.eq_def, if_neg (by omega)]
    exact ⟨rfl, rfl⟩
  | succ n ih =>
    intro start hle
    by_cases h : start < T
    · have hr := ih (start + CHUNK_SIZE + 1) (by omega)
      constructor
      · rw [chunkLoop.eq_def, dif_pos h]
        simp only [hfetch start (min (start + CHUNK_SIZE) (T - 1))]
        rw [if_neg (by simp [Response.ok])]
        rw [hr.1]
        conv_rhs => rw [chunkBounds.eq_def]
        rw [if_pos h, List.map_cons]
        rfl
      · rw [chunkLoopReqs.eq_def, dif_pos h]
        simp only [hfetch start (min (start + CHUNK_SIZE) (T - 1))]
        rw [if_neg (by simp [Response.ok])]
        rw [hr.2]
        conv_rhs => rw [chunkBounds.eq_def]
        rw [if_pos h, List.map_cons]
    · rw [chunkLoop.eq_def, dif_neg h]
      rw [chunkLoopReqs.eq_def, dif_neg h]
      rw [chunkBounds.eq_def, if_neg h]
      exact ⟨rfl, rfl⟩

theorem chunkBounds_flatten (res : Nat → Nat) (T : Nat) :
    ∀ start,
      ((chunkBounds T start).map (fun b => resSlice res b.1 (b.2 + 1 - b.1))).flatten
        = resSlice res start (T - start) := by
  suffices h : ∀ n start, T - start ≤ n →
      ((chunkBounds T start).map (fun b => resSlice res b.1 (b.2 + 1 - b.1))).flatten
        = resSlice res start (T - start) by
    intro start
    exact h (T - start) start le_rfl
  intro n
  induction n with
  | zero =>
    intro start h0
    rw [chunkBounds.eq_def, if_neg (by omega)]
    have : T - start = 0 := by omega
    rw [this]
    rfl
  | succ n ih =>
    intro start hle
    by_cases h : start < T
    · rw [chunkBounds.eq_def, if_pos h]
      rw [List.map_cons, List.flatten_cons]
      rw [ih (start + CHUNK_SIZE + 1) (by omega)]
      by_cases hbig : start + CHUNK_SIZE + 1 < T
      · have he : min (start + CHUNK_SIZE) (T - 1) + 1 - start = CHUNK_SIZE + 1 := by
          omega
        have harg : T - (start + CHUNK_SIZE + 1) = T - start - (CHUNK_SIZE + 1) := by
          omega
        have hsum : CHUNK_SIZE + 1 + (T - start - (CHUNK_SIZE + 1)) = T - start := by
          omega
        simp only [he, harg]
        rw [show start + CHUNK_SIZE + 1 = start + (CHUNK_SIZE + 1) by omega]
        rw [resSlice_append res start (CHUNK_SIZE + 1) (T - start - (CHUNK_SIZE + 1)),
          hsum]
      · have he : min (start + CHUNK_SIZE) (T - 1) + 1 - start = T - start := by
          omega
        have harg : T - (start + CHUNK_SIZE + 1) = 0 := by omega
        simp only [he, harg]
        show resSlice res start (T - start) ++ resSlice res (start + CHUNK_SIZE + 1) 0 = _
        have : resSlice res (start + CHUNK_SIZE + 1) 0 = [] := rfl
        rw [this, List.append_nil]
    · rw [chunkBounds.eq_def, if_neg h]
      have : T - start = 0 := by omega
      rw [this]
      rfl

/-- C6: chunked phase.  Against a well-behaved range server for an
abstract resource of `T` bytes (every range request `(s, e)` answered
206 with exactly the requested bytes, the first response reporting total
`T` via content-range, `T` greater than the window `CHUNK_SIZE + 1` =
524288), `downloadChunked` issues the request for bounds
`(0, CHUNK_SIZE)` followed by exactly the bounds generated by advancing
the start by the window with end `min (start + CHUNK_SIZE) (T - 1)`
until the start reaches `T`, and returns the concatenation of all chunks
in request order — the full resource, of length exactly `T`. -/
theorem downloadChunked_chunked
    (env : Env) (url : String) (res : Nat → Nat) (crs : String) (T : Nat)
    (hfetch : ∀ s e,
      env.fetch { url := url, headers := youtubeHeaders, range := some (s, e) }
        = .ok { status := 206, contentLengthHdr := none,
                contentRangeHdr := some crs, body := resSlice res s (e + 1 - s) })
    (hcr : parseContentRangeTotal crs = some T)
    (hT : CHUNK_SIZE + 1 < T) :
    downloadChunked env url youtubeHeaders
      = (.ok (resSlice res 0 T),
         ((0, CHUNK_SIZE) :: chunkBounds T (CHUNK_SIZE + 1)).map
           (fun b => { url := url, headers := youtubeHeaders, range := some b }))
    ∧ (resSlice res 0 T).length = T := by
  refine ⟨?_, resSlice_length res 0 T⟩
  have hspec := chunkLoop_spec env url res crs T hfetch (CHUNK_SIZE + 1)
  have hct : crTotal { status := 206, contentLengthHdr := none,
                       contentRangeHdr := some crs,
                       body := resSlice res 0 (CHUNK_SIZE + 1 - 0) } = T := by
    simp [crTotal, hcr]
  have hflat : (resSlice res 0 (CHUNK_SIZE + 1)
      :: (chunkBounds T (CHUNK_SIZE + 1)).map
          (fun b => resSlice res b.1 (b.2 + 1 - b.1))).flatten
      = resSlice res 0 T := by
    rw [List.flatten_cons, chunkBounds_flatten res T (CHUNK_SIZE + 1)]
    calc resSlice res 0 (CHUNK_SIZE + 1)
          ++ resSlice res (CHUNK_SIZE + 1) (T - (CHUNK_SIZE + 1))
        = resSlice res 0 (CHUNK_SIZE + 1)
          ++ resSlice res (0 + (CHUNK_SIZE + 1)) (T - (CHUNK_SIZE + 1)) := by
          rw [Nat.zero_add]
      _ = resSlice res 0 ((CHUNK_SIZE + 1) + (T - (CHUNK_SIZE + 1))) :=
          resSlice_append res 0 (CHUNK_SIZE + 1) (T - (CHUNK_SIZE + 1))
      _ = resSlice res 0 T := by
          have harith : (CHUNK_SIZE + 1) + (T - (CHUNK_SIZE + 1)) = T := by omega
          rw [harith]
  simp only [downloadChunked]
  rw [hfetch 0 CHUNK_SIZE]
  dsimp only
  rw [if_neg (by simp [Response.ok])]
  rw [resSlice_length, hct]
  simp only [Nat.sub_zero]
  rw [if_neg (by decide)]
  rw [if_neg (by
    simp only [Bool.or_eq_true, decide_eq_true_eq]
    push_neg
    exact ⟨by omega, by omega⟩)]
  rw [hspec.1, hspec.2]
  rw [Prod.mk.injEq]
  constructor
  · show Except.map _ (Except.ok _) = _
    rw [show ∀ (g : List (List Nat) → List Nat) (l : List (List Nat)),
        Except.map (ε := String) g (Except.ok l) = Except.ok (g l)
      from fun g l => rfl]
    rw [hflat]
  · rw [List.map_cons]

/-- C6 (witness): for total size 1,200,000 and window 524,288, exactly
three range requests with bounds [0,524287], [524288,1048575],
[1048576,1199999] are issued and the result is the whole 1,200,000-byte
resource. -/
theorem downloadChunked_chunked_witness :
    downloadChunked envChunked "u" youtubeHeaders
      = (.ok (resSlice res37 0 1200000),
         [{ url := "u", headers := youtubeHeaders, range := some (0, 524287) },
          { url := "u", headers := youtubeHeaders, range := some (524288, 1048575) },
          { url := "u", headers := youtubeHeaders, range := some (1048576, 1199999) }])
    ∧ (resSlice res37 0 1200000).length = 1200000 := by
  have h := downloadChunked_chunked envChunked "u" res37 "bytes 0-524287/1200000"
    1200000 (fun s e => rfl) (by decide) (by decide)
  have hb : chunkBounds 1200000 (CHUNK_SIZE + 1)
      = [(524288, 1048575), (1048576, 1199999)] := by
    have h4 : chunkBounds 1200000 1572864 = [] := by
      rw [chunkBounds.eq_def]
      norm_num
    have h3 : chunkBounds 1200000 1048576 = [(1048576, 1199999)] := by
      rw [chunkBounds.eq_def]
      norm_num [CHUNK_SIZE, h4]
    have h2 : chunkBounds 1200000 524288 = [(524288, 1048575), (1048576, 1199999)] := by
      rw [chunkBounds.eq_def]
      norm_num [CHUNK_SIZE, h3]
    rw [show CHUNK_SIZE + 1 = 524288 from rfl]
    exact h2
  refine ⟨?_, h.2⟩
  rw [h.1, hb]
  rfl
